import Mathlib

/-!
Verification development for the spelling_game repository.

The embedding models the two source components the claims are about:

* src/text_to_speech.py — the TextToSpeech queue worker: the lazy engine
  initialization (init_engine), the enqueue operation (speak) and the
  worker loop (process_queue).  External effects (module availability,
  pygame.mixer.init, tempfile creation, Edge TTS synthesis, playback,
  os.unlink) are modelled by boolean oracles: Config holds the two
  module-availability flags fixed at import time, and Outcome gives the
  success or failure of each external call made while handling one
  dequeued request.

* src/dictionary_manager.py — get_words_by_length, a dict comprehension
  filtering the loaded dictionary by word length and str.isalpha.
-/

namespace SpellingGame

/-- Module availability flags fixed at import time of text_to_speech.py:
TTS_AVAILABLE (the edge_tts import succeeded) and PLAYBACK_AVAILABLE
(the pygame import succeeded). -/
structure Config where
  tts : Bool
  playback : Bool
deriving DecidableEq, Repr

/-- Success or failure of each external call made while the worker handles
one dequeued request: pygame.mixer.init (initOk, consulted only if an init
attempt reaches it), tempfile.NamedTemporaryFile (tmpOk), the Edge TTS
synthesis via asyncio.run (synthOk), pygame playback (playOk) and
os.unlink of the temporary file (unlinkOk). -/
structure Outcome where
  initOk : Bool
  tmpOk : Bool
  synthOk : Bool
  playOk : Bool
  unlinkOk : Bool
deriving DecidableEq, Repr

/-- Observable outcome of handling one dequeued text: the request was
spoken (synthesis and playback both succeeded), the no-engine fallback
line was printed (would speak), or a synthesis/playback error was caught
and logged (speak error). -/
inductive Event where
  | spoke (t : String)
  | wouldSpeak (t : String)
  | speakError (t : String)
deriving DecidableEq, Repr

/-- The text carried by an event. -/
def Event.text : Event → String
  | .spoke t => t
  | .wouldSpeak t => t
  | .speakError t => t

/-- Per-request trace record: the engine_ready flag when the request was
dequeued, whether init_engine was invoked for it, the observable event,
whether queue.task_done was called, and whether a temporary audio file
was created and later deleted while handling it. -/
structure ReqResult where
  readyBefore : Bool
  initAttempted : Bool
  event : Event
  taskDone : Bool
  tempCreated : Bool
  tempDeleted : Bool
deriving DecidableEq, Repr

/-- TextToSpeech._init_engine: returns early (leaving engine_ready
unchanged) if either module is unavailable; otherwise calls
pygame.mixer.init and sets engine_ready to true on success and to false
on exception. -/
def init_engine (cfg : Config) (engine_ready : Bool) (initOk : Bool) : Bool :=
  if !cfg.tts then engine_ready
  else if !cfg.playback then engine_ready
  else if initOk then true
  else false

/-- One iteration of the worker loop body of TextToSpeech._process_queue
for a dequeued non-sentinel text: lazily init the engine if not ready;
if still not ready, print the would-speak fallback and mark the task
done; otherwise create a temporary file, synthesize, play, and unlink the
file on the success path, with any exception caught, logged and the task
marked done in the finally block.  Returns the new engine_ready flag and
the trace record. -/
def processRequest (cfg : Config) (o : Outcome) (engine_ready : Bool)
    (t : String) : Bool × ReqResult :=
  let attempted := !engine_ready
  let ready1 := if engine_ready then engine_ready
                else init_engine cfg engine_ready o.initOk
  if !ready1 then
    (ready1, ⟨engine_ready, attempted, .wouldSpeak t, true, false, false⟩)
  else if !o.tmpOk then
    (ready1, ⟨engine_ready, attempted, .speakError t, true, false, false⟩)
  else if !o.synthOk then
    (ready1, ⟨engine_ready, attempted, .speakError t, true, true, false⟩)
  else if !o.playOk then
    (ready1, ⟨engine_ready, attempted, .speakError t, true, true, false⟩)
  else
    (ready1, ⟨engine_ready, attempted, .spoke t, true, true, o.unlinkOk⟩)

/-- TextToSpeech._process_queue run against a fixed dequeue trace: the
list holds the values the blocking queue.get will return, in order
(some t for a text, none for the stop sentinel).  The worker breaks out
of the loop on the sentinel; otherwise it handles the request with
processRequest and continues.  Returns the per-request trace records and
the final engine_ready flag. -/
def process_queue (cfg : Config) (env : Nat → Outcome) :
    Nat → Bool → List (Option String) → List ReqResult × Bool
  | _, engine_ready, [] => ([], engine_ready)
  | _, engine_ready, none :: _ => ([], engine_ready)
  | i, engine_ready, some t :: rest =>
    let step := processRequest cfg (env i) engine_ready t
    let restRun := process_queue cfg env (i + 1) step.1 rest
    (step.2 :: restRun.1, restRun.2)

/-- queue.Queue.put on an unbounded FIFO queue modelled as a list:
append at the tail. -/
def put (q : List (Option String)) (x : Option String) :
    List (Option String) :=
  q ++ [x]

/-- queue.Queue.put as the fallible call it is inside speak: the oracle
ok says whether the put raises (e.g. allocation failure). -/
def queue_put (ok : Bool) (q : List (Option String)) (x : Option String) :
    Except String (List (Option String)) :=
  if ok then .ok (q ++ [x]) else .error "queue full"

/-- TextToSpeech.speak: try to put the text on the queue; any exception
is caught and logged.  The result is the queue after the call together
with the lines logged; the Except layer records whether speak itself
raises to its caller. -/
def speak (ok : Bool) (q : List (Option String)) (t : Option String) :
    Except String (List (Option String) × List String) :=
  match queue_put ok q t with
  | .ok q2 => .ok (q2, [])
  | .error e => .ok (q, ["TTS enqueue error: " ++ e])

/-- One meaning object of a dictionary entry; defn models the optional
def key read with .get in the source. -/
structure Meaning where
  defn : Option String
deriving DecidableEq, Repr

/-- The details object of one dictionary entry: its meanings list. -/
structure WordDetails where
  meanings : List Meaning
deriving DecidableEq, Repr

/-- Python str.isalpha: nonempty and every character alphabetic. -/
def py_isalpha (s : String) : Bool :=
  s.length != 0 && s.toList.all Char.isAlpha

/-- DictionaryManager.get_words_by_length: the dict comprehension over
self.dictionary.items() keeping words whose length lies in the range and
which are alphabetic, mapping each kept word to
details.meanings[0].get of the def key with default empty string.  The
subscript meanings[0] raises IndexError when the meanings list is empty,
aborting the comprehension, hence the Option result. -/
def get_words_by_length :
    Nat → Nat → List (String × WordDetails) → Option (List (String × String))
  | _, _, [] => some []
  | min_length, max_length, (word, details) :: rest =>
    if decide (min_length ≤ word.length) && decide (word.length ≤ max_length)
        && py_isalpha word then
      match details.meanings.head? with
      | none => none
      | some m =>
        (get_words_by_length min_length max_length rest).map
          (fun r => (word, m.defn.getD "") :: r)
    else get_words_by_length min_length max_length rest

/-! Helper lemmas about the worker model. -/

lemma processRequest_text (cfg : Config) (o : Outcome) (ready : Bool)
    (t : String) : (processRequest cfg o ready t).2.event.text = t := by
  rcases cfg with ⟨tts, pb⟩
  rcases o with ⟨i1, i2, i3, i4, i5⟩
  cases tts <;> cases pb <;> cases i1 <;> cases i2 <;> cases i3 <;>
    cases i4 <;> cases i5 <;> cases ready <;> rfl

lemma processRequest_readyBefore (cfg : Config) (o : Outcome) (ready : Bool)
    (t : String) : (processRequest cfg o ready t).2.readyBefore = ready := by
  rcases cfg with ⟨tts, pb⟩
  rcases o with ⟨i1, i2, i3, i4, i5⟩
  cases tts <;> cases pb <;> cases i1 <;> cases i2 <;> cases i3 <;>
    cases i4 <;> cases i5 <;> cases ready <;> rfl

lemma processRequest_initAttempted (cfg : Config) (o : Outcome) (ready : Bool)
    (t : String) : (processRequest cfg o ready t).2.initAttempted = !ready := by
  rcases cfg with ⟨tts, pb⟩
  rcases o with ⟨i1, i2, i3, i4, i5⟩
  cases tts <;> cases pb <;> cases i1 <;> cases i2 <;> cases i3 <;>
    cases i4 <;> cases i5 <;> cases ready <;> rfl

lemma processRequest_ready_of_ready (cfg : Config) (o : Outcome)
    (t : String) : (processRequest cfg o true t).1 = true := by
  rcases cfg with ⟨tts, pb⟩
  rcases o with ⟨i1, i2, i3, i4, i5⟩
  cases tts <;> cases pb <;> cases i1 <;> cases i2 <;> cases i3 <;>
    cases i4 <;> cases i5 <;> rfl

lemma process_queue_texts (cfg : Config) (env : Nat → Outcome)
    (ts : List String) : ∀ (i : Nat) (ready : Bool),
    (process_queue cfg env i ready (ts.map some)).1.map
      (fun r => r.event.text) = ts := by
  induction ts with
  | nil => intro i ready; rfl
  | cons t ts ih =>
    intro i ready
    simp only [List.map_cons, process_queue, List.map]
    rw [processRequest_text, ih]

lemma process_queue_sentinel (cfg : Config) (env : Nat → Outcome)
    (pre : List String) : ∀ (i : Nat) (ready : Bool)
    (post : List (Option String)),
    process_queue cfg env i ready (pre.map some ++ none :: post)
      = process_queue cfg env i ready (pre.map some) := by
  induction pre with
  | nil => intro i ready post; rfl
  | cons t pre ih =>
    intro i ready post
    simp only [List.map_cons, List.cons_append, process_queue, List.append_eq]
    rw [ih]

lemma foldl_put (l : List (Option String)) :
    ∀ acc, List.foldl put acc l = acc ++ l := by
  induction l with
  | nil => intro acc; simp [List.foldl]
  | cons x l ih => intro acc; simp [List.foldl, put, ih]

lemma processRequest_not_ready (cfg : Config) (o : Outcome) (ready : Bool)
    (t : String)
    (hstep : (if ready then ready else init_engine cfg ready o.initOk)
      = false) :
    processRequest cfg o ready t
      = (false, ⟨ready, !ready, .wouldSpeak t, true, false, false⟩) := by
  simp [processRequest, hstep]

lemma process_queue_never_ready (cfg : Config) (env : Nat → Outcome)
    (hnever : ∀ ok, init_engine cfg false ok = false) (ts : List String) :
    ∀ i, (process_queue cfg env i false (ts.map some)).1
      = ts.map (fun u => ⟨false, true, .wouldSpeak u, true, false, false⟩) := by
  induction ts with
  | nil => intro i; rfl
  | cons t ts ih =>
    intro i
    simp only [List.map_cons, process_queue]
    rw [processRequest_not_ready cfg (env i) false t (by simp [hnever]), ih]
    rfl

lemma process_queue_stays_ready (cfg : Config) (env : Nat → Outcome)
    (qs : List (Option String)) : ∀ i,
    (process_queue cfg env i true qs).2 = true ∧
    ∀ r ∈ (process_queue cfg env i true qs).1, r.readyBefore = true := by
  induction qs with
  | nil =>
    intro i
    exact ⟨rfl, by intro r h; simp [process_queue] at h⟩
  | cons x qs ih =>
    intro i
    cases x with
    | none => exact ⟨rfl, by intro r h; simp [process_queue] at h⟩
    | some t =>
      simp only [process_queue]
      rw [processRequest_ready_of_ready]
      refine ⟨(ih (i + 1)).1, ?_⟩
      intro r hr
      rcases List.mem_cons.mp hr with h | h
      · rw [h]; exact processRequest_readyBefore cfg (env i) true t
      · exact (ih (i + 1)).2 r h

lemma process_queue_init_iff_not_ready (cfg : Config) (env : Nat → Outcome)
    (qs : List (Option String)) : ∀ i ready,
    ∀ r ∈ (process_queue cfg env i ready qs).1,
      r.initAttempted = !r.readyBefore := by
  induction qs with
  | nil => intro i ready r h; simp [process_queue] at h
  | cons x qs ih =>
    intro i ready r h
    cases x with
    | none => simp [process_queue] at h
    | some t =>
      simp only [process_queue] at h
      rcases List.mem_cons.mp h with h | h
      · rw [h, processRequest_initAttempted, processRequest_readyBefore]
      · exact ih (i + 1) _ r h

/-! Claim theorems. -/

/-- C1, amended.  The original claim is false on the code (see
c1_counterexample): _process_queue calls _init_engine on every dequeued
request for which engine_ready is false, so a failed initialization is
not terminal and is re-attempted on the next request.  Amended claim:
lazy initialization is attempted exactly when a request is dequeued
while the engine is not ready (hence re-attempted after a failure, and a
later attempt may succeed, as the counterexample shows); once the engine
is ready it stays ready and initialization is never attempted again. -/
theorem c1_lazy_init_retried_not_terminal (cfg : Config)
    (env : Nat → Outcome) (qs : List (Option String)) (i : Nat)
    (ready : Bool) :
    (∀ r ∈ (process_queue cfg env i ready qs).1,
      r.initAttempted = !r.readyBefore) ∧
    (ready = true →
      (process_queue cfg env i ready qs).2 = true ∧
      ∀ r ∈ (process_queue cfg env i ready qs).1,
        r.readyBefore = true ∧ r.initAttempted = false) := by
  refine ⟨process_queue_init_iff_not_ready cfg env qs i ready, ?_⟩
  intro h
  subst h
  refine ⟨(process_queue_stays_ready cfg env qs i).1, ?_⟩
  intro r hr
  have h1 := (process_queue_stays_ready cfg env qs i).2 r hr
  have h2 := process_queue_init_iff_not_ready cfg env qs i true r hr
  rw [h1] at h2 ⊢
  exact ⟨rfl, h2⟩

/-- Witness for c1_lazy_init_retried_not_terminal at a concrete run. -/
theorem c1_lazy_init_retried_not_terminal_witness :
    ReqResult.initAttempted ⟨true, false, .spoke "a", true, true, true⟩
      = !ReqResult.readyBefore ⟨true, false, .spoke "a", true, true, true⟩ ∧
    (process_queue ⟨true, true⟩ (fun _ => ⟨true, true, true, true, true⟩) 0
      true [some "a"]).2 = true :=
  ⟨(c1_lazy_init_retried_not_terminal ⟨true, true⟩
      (fun _ => ⟨true, true, true, true, true⟩) [some "a"] 0 true).1
      ⟨true, false, .spoke "a", true, true, true⟩ (by decide),
   ((c1_lazy_init_retried_not_terminal ⟨true, true⟩
      (fun _ => ⟨true, true, true, true, true⟩) [some "a"] 0 true).2 rfl).1⟩

/-- Counterexample to C1 as stated: with both modules available, the
first dequeued request hits a failing pygame.mixer.init (engine stays
not ready, would-speak fallback), yet on the second dequeued request
initialization is re-attempted (initAttempted is true again) and
succeeds, and the request is spoken with the engine ending up ready —
contradicting that a first failure is terminal and that init is
attempted at most once per instance. -/
theorem c1_counterexample :
    (process_queue ⟨true, true⟩
      (fun i => if i = 0 then ⟨false, true, true, true, true⟩
                else ⟨true, true, true, true, true⟩)
      0 false [some "a", some "b"]).1
      = [⟨false, true, .wouldSpeak "a", true, false, false⟩,
         ⟨false, true, .spoke "b", true, true, true⟩] ∧
    (process_queue ⟨true, true⟩
      (fun i => if i = 0 then ⟨false, true, true, true, true⟩
                else ⟨true, true, true, true, true⟩)
      0 false [some "a", some "b"]).2 = true := by
  exact ⟨rfl, rfl⟩

/-- C2: with the queue built by a serialized sequence of puts, the
worker processes exactly the submitted texts, in submission order, with
no reordering, duplication or dropping — for every configuration and
every pattern of per-request external outcomes. -/
theorem c2_fifo_order (cfg : Config) (env : Nat → Outcome) (i : Nat)
    (ready : Bool) (ts : List String) :
    (process_queue cfg env i ready
      (List.foldl put [] (ts.map some))).1.map (fun r => r.event.text)
      = ts := by
  rw [foldl_put, List.nil_append, process_queue_texts]

/-- C3: when the dequeue trace is the texts enqueued before the stop
sentinel, then the sentinel, then anything enqueued after it, the worker
processes exactly the requests that preceded the sentinel, in order, and
nothing that follows it. -/
theorem c3_stop_sentinel (cfg : Config) (env : Nat → Outcome) (i : Nat)
    (ready : Bool) (pre : List String) (post : List (Option String)) :
    (process_queue cfg env i ready (pre.map some ++ none :: post)).1.map
      (fun r => r.event.text) = pre := by
  rw [process_queue_sentinel, process_queue_texts]

/-- C4: per-request failure isolation.  Whatever per-request failures
the environment injects, every enqueued text is still handled, in
order, so the loop never terminates because of a failing request; and a
request whose temp-file creation, synthesis or playback fails produces
exactly a logged speak error while leaving the engine ready for the
next request. -/
theorem c4_per_request_isolation (cfg : Config) (env : Nat → Outcome)
    (i : Nat) (ready : Bool) (ts : List String) (o : Outcome) (t : String)
    (hfail : o.tmpOk = false ∨ o.synthOk = false ∨ o.playOk = false) :
    (process_queue cfg env i ready (ts.map some)).1.map
      (fun r => r.event.text) = ts ∧
    (processRequest cfg o true t).2.event = .speakError t ∧
    (processRequest cfg o true t).1 = true := by
  refine ⟨process_queue_texts cfg env ts i ready, ?_,
    processRequest_ready_of_ready cfg o t⟩
  rcases o with ⟨i1, i2, i3, i4, i5⟩
  cases i2 <;> cases i3 <;> cases i4 <;> simp_all [processRequest]

/-- Witness for c4_per_request_isolation: request 2 of 3 fails at
synthesis, requests 1 and 3 still complete, in order. -/
theorem c4_per_request_isolation_witness :
    (process_queue ⟨true, true⟩
      (fun i => if i = 1 then ⟨true, true, false, true, true⟩
                else ⟨true, true, true, true, true⟩)
      0 true (["a", "b", "c"].map some)).1.map (fun r => r.event.text)
      = ["a", "b", "c"] ∧
    (processRequest ⟨true, true⟩ ⟨true, true, false, true, true⟩ true
      "b").2.event = .speakError "b" ∧
    (processRequest ⟨true, true⟩ ⟨true, true, false, true, true⟩ true
      "b").1 = true :=
  c4_per_request_isolation ⟨true, true⟩
    (fun i => if i = 1 then ⟨true, true, false, true, true⟩
              else ⟨true, true, true, true, true⟩)
    0 true ["a", "b", "c"] ⟨true, true, false, true, true⟩ "b"
    (Or.inr (Or.inl rfl))

/-- C5: speak never raises to its caller: for every queue state and
text it returns normally, and when the underlying put fails the queue is
unchanged and the failure is logged instead of propagated. -/
theorem c5_speak_never_raises (ok : Bool) (q : List (Option String))
    (t : Option String) :
    (∃ r, speak ok q t = Except.ok r) ∧
    (ok = false →
      speak ok q t = Except.ok (q, ["TTS enqueue error: queue full"])) := by
  cases ok <;> exact ⟨⟨_, rfl⟩, fun h => by first | rfl | cases h⟩

/-- Witness for c5_speak_never_raises with a failing put. -/
theorem c5_speak_never_raises_witness :
    (∃ r, speak false [] (some "apple") = Except.ok r) ∧
    speak false [] (some "apple")
      = Except.ok ([], ["TTS enqueue error: queue full"]) :=
  ⟨(c5_speak_never_raises false [] (some "apple")).1,
   (c5_speak_never_raises false [] (some "apple")).2 rfl⟩

/-- C6: a dequeued request for which the engine is still not ready after
the lazy init attempt yields exactly the would-speak fallback record —
task marked done, no temp file, no synthesis or playback — with the
worker not exiting; and when initialization can never succeed the whole
queue is drained this way, one fallback record per enqueued text. -/
theorem c6_no_engine_fallback (cfg : Config) (o : Outcome) (ready : Bool)
    (t : String) (env : Nat → Outcome) (i : Nat) (ts : List String)
    (hstep : (if ready then ready else init_engine cfg ready o.initOk)
      = false)
    (hnever : ∀ ok, init_engine cfg false ok = false) :
    processRequest cfg o ready t
      = (false, ⟨ready, !ready, .wouldSpeak t, true, false, false⟩) ∧
    (process_queue cfg env i false (ts.map some)).1
      = ts.map (fun u => ⟨false, true, .wouldSpeak u, true, false, false⟩) :=
  ⟨processRequest_not_ready cfg o ready t hstep,
   process_queue_never_ready cfg env hnever ts i⟩

/-- Witness for c6_no_engine_fallback with edge_tts unavailable. -/
theorem c6_no_engine_fallback_witness :
    processRequest ⟨false, true⟩ ⟨true, true, true, true, true⟩ false "apple"
      = (false, ⟨false, true, .wouldSpeak "apple", true, false, false⟩) ∧
    (process_queue ⟨false, true⟩ (fun _ => ⟨true, true, true, true, true⟩) 0
      false (["a", "b"].map some)).1
      = ["a", "b"].map
          (fun u => ⟨false, true, .wouldSpeak u, true, false, false⟩) :=
  c6_no_engine_fallback ⟨false, true⟩ ⟨true, true, true, true, true⟩ false
    "apple" (fun _ => ⟨true, true, true, true, true⟩) 0 ["a", "b"]
    (by decide) (fun ok => by cases ok <;> rfl)

/-- C7, amended.  The original claim is false on the code (see
c7_counterexample): os.unlink of the temporary file is only reached on
the success path, so a synthesis or playback exception leaks the file.
Amended claim: the temporary file is deleted only when both synthesis
and playback succeed (and then only if the unlink call itself succeeds);
on a logged synthesis/playback failure the file is never deleted. -/
theorem c7_temp_file_deleted_only_on_success (cfg : Config) (o : Outcome)
    (ready : Bool) (t : String) :
    ((processRequest cfg o ready t).2.event = .speakError t →
      (processRequest cfg o ready t).2.tempDeleted = false) ∧
    ((processRequest cfg o ready t).2.event = .spoke t →
      (processRequest cfg o ready t).2.tempCreated = true ∧
      (processRequest cfg o ready t).2.tempDeleted = o.unlinkOk) := by
  rcases cfg with ⟨tts, pb⟩
  rcases o with ⟨i1, i2, i3, i4, i5⟩
  cases tts <;> cases pb <;> cases i1 <;> cases i2 <;> cases i3 <;>
    cases i4 <;> cases i5 <;> cases ready <;>
    simp [processRequest, init_engine]

/-- Witness for c7_temp_file_deleted_only_on_success on the success
path with a succeeding unlink. -/
theorem c7_temp_file_deleted_only_on_success_witness :
    (processRequest ⟨true, true⟩ ⟨true, true, true, true, true⟩ true
      "apple").2.tempCreated = true ∧
    (processRequest ⟨true, true⟩ ⟨true, true, true, true, true⟩ true
      "apple").2.tempDeleted = true :=
  (c7_temp_file_deleted_only_on_success ⟨true, true⟩
    ⟨true, true, true, true, true⟩ true "apple").2 rfl

/-- Counterexample to C7 as stated: with the engine ready, a request
whose playback raises has had its temporary file created, yet after the
worker finishes handling it the file has not been deleted. -/
theorem c7_counterexample :
    (processRequest ⟨true, true⟩ ⟨true, true, true, false, true⟩ true
      "apple").2.tempCreated = true ∧
    (processRequest ⟨true, true⟩ ⟨true, true, true, false, true⟩ true
      "apple").2.tempDeleted = false := by
  exact ⟨rfl, rfl⟩

lemma get_words_by_length_mem (min_length max_length : Nat) :
    ∀ (dict : List (String × WordDetails)) (res : List (String × String)),
    get_words_by_length min_length max_length dict = some res →
    ∀ w d, (w, d) ∈ res →
      min_length ≤ w.length ∧ w.length ≤ max_length ∧ py_isalpha w = true ∧
      ∃ details m, (w, details) ∈ dict ∧ details.meanings.head? = some m ∧
        d = m.defn.getD "" := by
  intro dict
  induction dict with
  | nil =>
    intro res h w d hm
    simp only [get_words_by_length, Option.some.injEq] at h
    rw [← h] at hm
    simp at hm
  | cons p dict ih =>
    obtain ⟨word, details⟩ := p
    intro res h w d hm
    simp only [get_words_by_length] at h
    by_cases hc : (decide (min_length ≤ word.length)
        && decide (word.length ≤ max_length) && py_isalpha word) = true
    · rw [if_pos hc] at h
      cases hh : details.meanings.head? with
      | none => rw [hh] at h; simp at h
      | some m =>
        rw [hh] at h
        obtain ⟨r0, hr0, hres⟩ := Option.map_eq_some'.mp h
        rw [← hres] at hm
        rcases List.mem_cons.mp hm with h1 | h1
        · injection h1 with hw hd
          subst hw
          subst hd
          simp only [Bool.and_eq_true, decide_eq_true_eq] at hc
          exact ⟨hc.1.1, hc.1.2, hc.2,
            ⟨details, m, List.mem_cons_self _ _, hh, rfl⟩⟩
        · obtain ⟨hr1, hr2, hr3, dt, m1, hmem, hh1, hd1⟩ := ih r0 hr0 w d h1
          exact ⟨hr1, hr2, hr3, dt, m1, List.mem_cons_of_mem _ hmem, hh1, hd1⟩
    · rw [if_neg hc] at h
      obtain ⟨hr1, hr2, hr3, dt, m1, hmem, hh1, hd1⟩ := ih res h w d hm
      exact ⟨hr1, hr2, hr3, dt, m1, List.mem_cons_of_mem _ hmem, hh1, hd1⟩

/-- C9: whenever get_words_by_length returns a mapping, every word in it
has length between min_length and max_length inclusive and is mapped to
the def field of that dictionary entry shown through its first meaning,
with the empty string as default when the def field is absent. -/
theorem c9_range_and_first_meaning_def (min_length max_length : Nat)
    (dict : List (String × WordDetails)) (res : List (String × String))
    (h : get_words_by_length min_length max_length dict = some res)
    (w d : String) (hm : (w, d) ∈ res) :
    (min_length ≤ w.length ∧ w.length ≤ max_length) ∧
    ∃ details m, (w, details) ∈ dict ∧ details.meanings.head? = some m ∧
      d = m.defn.getD "" := by
  obtain ⟨h1, h2, _, h4⟩ := get_words_by_length_mem min_length max_length
    dict res h w d hm
  exact ⟨⟨h1, h2⟩, h4⟩

/-- Witness for c9_range_and_first_meaning_def: an entry whose first
meaning lacks the def field is mapped to the empty string. -/
theorem c9_range_and_first_meaning_def_witness :
    (1 ≤ String.length "go" ∧ String.length "go" ≤ 10) ∧
    ∃ details m,
      ("go", details) ∈
        [("apple", WordDetails.mk [Meaning.mk (some "a fruit")]),
         ("go", WordDetails.mk [Meaning.mk none])] ∧
      details.meanings.head? = some m ∧ "" = m.defn.getD "" :=
  c9_range_and_first_meaning_def 1 10
    [("apple", WordDetails.mk [Meaning.mk (some "a fruit")]),
     ("go", WordDetails.mk [Meaning.mk none])]
    [("apple", "a fruit"), ("go", "")] rfl "go" "" (by decide)

/-- C10: whenever get_words_by_length returns a mapping, every word in
it passes str.isalpha, so entries with hyphens or other non-letter
characters are never included. -/
theorem c10_words_all_alpha (min_length max_length : Nat)
    (dict : List (String × WordDetails)) (res : List (String × String))
    (h : get_words_by_length min_length max_length dict = some res)
    (w d : String) (hm : (w, d) ∈ res) : py_isalpha w = true :=
  (get_words_by_length_mem min_length max_length dict res h w d hm).2.2.1

/-- Witness for c10_words_all_alpha: on a dictionary holding the
hyphenated entry cd-rom and the alphabetic entry apple, only apple is
returned, and the theorem applies to it. -/
theorem c10_words_all_alpha_witness :
    get_words_by_length 1 10
      [("apple", WordDetails.mk [Meaning.mk (some "a fruit")]),
       ("cd-rom", WordDetails.mk [Meaning.mk (some "a compact disc")])]
      = some [("apple", "a fruit")] ∧
    py_isalpha "apple" = true :=
  ⟨rfl,
   c10_words_all_alpha 1 10
     [("apple", WordDetails.mk [Meaning.mk (some "a fruit")]),
      ("cd-rom", WordDetails.mk [Meaning.mk (some "a compact disc")])]
     [("apple", "a fruit")] rfl "apple" "a fruit" (by decide)⟩

end SpellingGame
